import Mathlib

/-!
Shallow embedding of the bounded tool-orchestration core of the
course-materials RAG backend, together with the retrieval-tool and
similarity-store contracts it depends on, and proofs of the behavioural
properties stated in the specification.

The orchestrator (`AIGenerator.generate_response` in
`backend/ai_generator.py`) is embedded as a pure function over an abstract
inference provider (a stream of responses) and an abstract tool manager
(a function that either returns a result string or fails with an
exception message).  The embedding additionally records a trace of every
provider call issued (with the exact parameters sent) and of every tool
execution performed, so that theorems can speak about call counts,
parameter presence, and message-list shapes.
-/

namespace RAG

/-- Opaque tool schema as advertised to the inference provider
(`ai_generator.py` never inspects it, only forwards it). -/
abbrev ToolSchema := String

/-- Keyword arguments of a tool call (`block.input` in the source),
an opaque mapping. -/
abbrev ToolInput := List (String × String)

/-- A content block of a provider response: plain text or a tool-call
request `{name, id, input}` (the `block.type` discrimination in the
source is the constructor tag here). -/
inductive ContentBlock where
  | text (t : String)
  | toolUse (name : String) (id : String) (input : ToolInput)
deriving DecidableEq, Repr

/-- A provider response: a stop reason and a list of content blocks. -/
structure Response where
  stop_reason : String
  content : List ContentBlock
deriving DecidableEq, Repr

/-- `response.content[0].text` in Python: `some t` when the first content
block exists and is a text block, `none` when the access would raise
(IndexError on empty content, AttributeError on a tool-use block). -/
def firstText (r : Response) : Option String :=
  match r.content with
  | ContentBlock.text t :: _ => some t
  | _ => none

/-- A tool-result entry appended to the conversation
(`{"type": "tool_result", "tool_use_id": ..., "content": ...}`; the
constant `"type"` field is implicit in the structure itself). -/
structure ToolResult where
  tool_use_id : String
  content : String
deriving DecidableEq, Repr

/-- Content of one conversation turn: a plain string (the user query),
the assistant's raw content blocks, or a list of tool results. -/
inductive MessageContent where
  | str (s : String)
  | blocks (bs : List ContentBlock)
  | toolResults (rs : List ToolResult)
deriving DecidableEq, Repr

/-- One conversation turn (`{"role": ..., "content": ...}`). -/
structure Message where
  role : String
  content : MessageContent
deriving DecidableEq, Repr

/-- The parameters of one `client.messages.create` call, as the source
builds them: `tools = none` / `tool_choice = none` model the *absence* of
those keys from `api_params`. -/
structure APICall where
  messages : List Message
  system : String
  tools : Option (List ToolSchema)
  tool_choice : Option String
deriving DecidableEq, Repr

/-- Record of one executed tool call: name, input, and the result string
passed back (after any exception conversion). -/
structure ToolExec where
  name : String
  input : ToolInput
  result : String
deriving DecidableEq, Repr

/-- The observable trace of one `generate_response` run. -/
structure Trace where
  calls : List APICall
  toolExecs : List ToolExec
deriving DecidableEq, Repr

/-- The inference provider: call number ↦ response.  The source treats
`client.messages.create` as an opaque synchronous call. -/
abbrev Provider := Nat → Response

/-- The tool manager: `execute_tool(name, **input)`, returning a result
string or raising an exception carrying a message (`Except.error`). -/
abbrev ToolManager := String → ToolInput → Except String String

namespace AIGenerator

/-- `AIGenerator.MAX_TOOL_ROUNDS` in the source. -/
def MAX_TOOL_ROUNDS : Nat := 2

/-- `AIGenerator.SYSTEM_PROMPT` (lines 11–36 of the source): the static
system prompt, reproduced verbatim.  Its exact text is irrelevant to
every property proved below; only its identity as a fixed string
matters. -/
def SYSTEM_PROMPT : String :=
  " You are an AI assistant specialized in course materials and educational content with access to a comprehensive search tool for course information.

Tool Usage:
- Use `get_course_outline` for questions about course structure, lesson lists, or what topics a course covers
- Use `search_course_content` for questions about specific course content or detailed educational material
- **Up to 2 sequential tool calls per query** — use a second call only when the first result reveals information needed to form a better search (e.g., get a course outline, then search for related content using a lesson title found in the outline). Do not use both calls for redundant searches.
- Synthesize tool results into accurate, fact-based responses
- If a tool yields no results, state this clearly without offering alternatives

When responding to outline queries, include the course title, course link, and all lesson numbers with their titles.

Response Protocol:
- **General knowledge questions**: Answer using existing knowledge without searching
- **Course-specific questions**: Search first, then answer
- **No meta-commentary**:
 - Provide direct answers only — no reasoning process, search explanations, or question-type analysis
 - Do not mention \"based on the search results\"


All responses must be:
1. **Brief, Concise and focused** - Get to the point quickly
2. **Educational** - Maintain instructional value
3. **Clear** - Use accessible language
4. **Example-supported** - Include relevant examples when they aid understanding
Provide only the direct answer to what was asked.
"

/-- Python truthiness of the `tools` argument (`if tools:`): the key is
added only when `tools` is a non-None, non-empty list. -/
def toolsTruthy (tools : Option (List ToolSchema)) : Bool :=
  match tools with
  | none => false
  | some l => !l.isEmpty

/-- System-content construction (lines 66–70 of the source): Python
truthiness of `conversation_history` means both `None` and the empty
string leave the static prompt unchanged. -/
def buildSystem (conversation_history : Option String) : String :=
  match conversation_history with
  | some h =>
      if h.isEmpty then SYSTEM_PROMPT
      else SYSTEM_PROMPT ++ "\n\nPrevious conversation:\n" ++ h
  | none => SYSTEM_PROMPT

/-- The result string of one `tool_manager.execute_tool` call after the
per-call `try/except` (lines 105–108): an exception is converted to
`"Tool error: <message>"`. -/
def execResult (tm : ToolManager) (name : String) (input : ToolInput) : String :=
  match tm name input with
  | Except.ok s => s
  | Except.error e => "Tool error: " ++ e

/-- The `api_params` built for a tool-enabled round call (lines 83–90):
the `"tools"` / `"tool_choice"` keys are added only when the `tools`
argument is truthy. -/
def roundParams (messages : List Message) (system : String)
    (tools : Option (List ToolSchema)) : APICall :=
  { messages := messages
    system := system
    tools := if toolsTruthy tools then tools else none
    tool_choice := if toolsTruthy tools then some "auto" else none }

/-- The parameters of a call that never carries tool keys: the fast path
(lines 76–78) and the synthesis call (lines 120–122). -/
def plainParams (messages : List Message) (system : String) : APICall :=
  { messages := messages, system := system, tools := none, tool_choice := none }

/-- The tool-execution loop over the blocks of one response (lines
101–115): each `tool_use` block is dispatched in emission order; text
blocks are skipped; every block yields exactly one tool-result entry
keyed by its id.  Returns the tool-result list and the execution trace. -/
def processToolBlocks (tm : ToolManager) :
    List ContentBlock → List ToolResult × List ToolExec
  | [] => ([], [])
  | ContentBlock.text _ :: rest => processToolBlocks tm rest
  | ContentBlock.toolUse name id input :: rest =>
      let r := execResult tm name input
      let (rs, es) := processToolBlocks tm rest
      ({ tool_use_id := id, content := r } :: rs,
       { name := name, input := input, result := r } :: es)

/-- The `for round_num in range(MAX_TOOL_ROUNDS)` loop (lines 82–117)
followed by the synthesis call (lines 119–123), with `fuel` the number of
remaining tool-enabled rounds and `callIdx` the index of the next
provider call.  `none` models an uncaught Python exception from
`content[0].text`. -/
def toolLoop (provider : Provider) (tm : ToolManager)
    (tools : Option (List ToolSchema)) (system : String) :
    Nat → Nat → List Message → Trace → Option (String × Trace)
  | 0, callIdx, messages, trace =>
      -- synthesis call: api_params never gets "tools"/"tool_choice"
      let call := plainParams messages system
      let resp := provider callIdx
      let trace := { trace with calls := trace.calls ++ [call] }
      match firstText resp with
      | some t => some (t, trace)
      | none => none
  | fuel + 1, callIdx, messages, trace =>
      let call := roundParams messages system tools
      let resp := provider callIdx
      let trace := { trace with calls := trace.calls ++ [call] }
      if resp.stop_reason ≠ "tool_use" then
        match firstText resp with
        | some t => some (t, trace)
        | none => none
      else
        let messages := messages ++ [{ role := "assistant", content := MessageContent.blocks resp.content }]
        let (results, execs) := processToolBlocks tm resp.content
        let messages := messages ++ [{ role := "user", content := MessageContent.toolResults results }]
        toolLoop provider tm tools system fuel (callIdx + 1) messages
          { trace with toolExecs := trace.toolExecs ++ execs }

/-- `AIGenerator.generate_response` (lines 45–123): system content and
seed message are built, then either the no-tool-manager fast path
(lines 75–79) or the bounded tool-round loop runs.  Returns the final
answer string together with the full call/execution trace, or `none` for
an uncaught exception. -/
def generate_response (provider : Provider) (query : String)
    (conversation_history : Option String)
    (tools : Option (List ToolSchema))
    (tool_manager : Option ToolManager) : Option (String × Trace) :=
  let system_content := buildSystem conversation_history
  let messages : List Message := [{ role := "user", content := MessageContent.str query }]
  match tool_manager with
  | none =>
      let call := plainParams messages system_content
      let resp := provider 0
      match firstText resp with
      | some t => some (t, { calls := [call], toolExecs := [] })
      | none => none
  | some tm =>
      toolLoop provider tm tools system_content MAX_TOOL_ROUNDS 0 messages
        { calls := [], toolExecs := [] }

/-- Declarative description of the tool-result turn produced from one
response's content blocks: one entry per `tool_use` block, in emission
order, keyed by the block's id, with the exception-converted result. -/
def toolResultsSpec (tm : ToolManager) (bs : List ContentBlock) : List ToolResult :=
  bs.filterMap fun b =>
    match b with
    | ContentBlock.toolUse name id input =>
        some { tool_use_id := id, content := execResult tm name input }
    | ContentBlock.text _ => none

/-- Declarative description of the tool executions performed for one
response's content blocks, in emission order. -/
def toolExecsSpec (tm : ToolManager) (bs : List ContentBlock) : List ToolExec :=
  bs.filterMap fun b =>
    match b with
    | ContentBlock.toolUse name _ input =>
        some { name := name, input := input, result := execResult tm name input }
    | ContentBlock.text _ => none

/-- Number of tool-call requests among a response's content blocks. -/
def countToolUse (bs : List ContentBlock) : Nat :=
  bs.countP fun b =>
    match b with
    | ContentBlock.toolUse _ _ _ => true
    | ContentBlock.text _ => false

/-- The user turn seeding every conversation. -/
def seedMsg (query : String) : Message :=
  { role := "user", content := MessageContent.str query }

/-- Well-formedness of the provider stream: whenever a response's stop
condition is not `tool_use` the source reads `content[0].text`, so such a
response must start with a text block (real provider responses do). -/
def ProviderWF (provider : Provider) : Prop :=
  ∀ n, (provider n).stop_reason ≠ "tool_use" → (firstText (provider n)).isSome

/-- The only turn shapes that can ever occur in a conversation: the seed
user turn, an assistant turn of raw content blocks, or a user turn of
tool results.  In particular no turn ever carries the prior-session
context string. -/
def seedOrToolTurn (query : String) (m : Message) : Prop :=
  m = seedMsg query ∨
  (m.role = "assistant" ∧ ∃ bs, m.content = MessageContent.blocks bs) ∨
  (m.role = "user" ∧ ∃ rs, m.content = MessageContent.toolResults rs)

end AIGenerator

/-! ### Similarity Store (spec-modelled)

`backend/vector_store.py` is not part of the sources available here; only
its tests and callers are.  The definitions below are therefore modelled
from the specification (§3, §4.1) and pinned by the repository's own
tests (`test_course_search_tool.py`, `test_rag_system.py`). -/

/-- Metadata attached to one stored fragment (course title and optional
lesson number; further keys are irrelevant to every property here). -/
structure Meta where
  course_title : String
  lesson_number : Option Nat
deriving DecidableEq, Repr

/-- Modelled from the spec: the `SearchResults` value of the missing
`backend/vector_store.py` — ordered aligned lists of documents, metadata
and distance scores plus an optional error string (distance scores are
opaque to every property proved here and are carried as integers). -/
structure SearchResults where
  documents : List String
  metadata : List Meta
  distances : List Int
  error : Option String := none
deriving DecidableEq, Repr

/-- Modelled from the spec: `SearchResults.empty(msg)` of the missing
`backend/vector_store.py` — an error-only result set. -/
def SearchResults.empty (msg : String) : SearchResults :=
  { documents := [], metadata := [], distances := [], error := some msg }

/-- Filter expression built from whichever of the course / lesson
constraints are present (spec §4.1). -/
inductive Filter where
  | byCourse (title : String)
  | byLesson (lesson : Nat)
  | byBoth (title : String) (lesson : Nat)
deriving DecidableEq, Repr

/-- Modelled from the spec: `VectorStore._build_filter` of the missing
`backend/vector_store.py` — both, either, or neither constraint. -/
def build_filter : Option String → Option Nat → Option Filter
  | none, none => none
  | some c, none => some (Filter.byCourse c)
  | none, some l => some (Filter.byLesson l)
  | some c, some l => some (Filter.byBoth c l)

/-- Modelled from the spec: the state of the missing
`backend/vector_store.py`'s `VectorStore` — the configured result count,
the underlying index's query operation (which may reject a request, e.g.
`n_results = 0`, modelled as `Except.error`), and the two read-only link
lookups of §4.1. -/
structure VectorStore where
  max_results : Nat
  course_content : Nat → Option Filter → String → Except String (List (String × Meta × Int))
  get_lesson_link : String → Nat → Option String
  get_course_link : String → Option String

/-- Modelled from the spec: `VectorStore.search` of the missing
`backend/vector_store.py` — resolves the result count (override or
configured default), builds the filter, queries the index, and converts
any index failure into an error-only result set with a message beginning
`"Search error: "`.  Totality of this function is the "no exception
escapes" guarantee. -/
def VectorStore.search (vs : VectorStore) (query : String)
    (course_name : Option String := none) (lesson_number : Option Nat := none)
    (limit : Option Nat := none) : SearchResults :=
  let n := limit.getD vs.max_results
  let filt := build_filter course_name lesson_number
  match vs.course_content n filt query with
  | Except.error e => SearchResults.empty ("Search error: " ++ e)
  | Except.ok frags =>
      { documents := frags.map fun f => f.1
        metadata := frags.map fun f => f.2.1
        distances := frags.map fun f => f.2.2
        error := none }

/-! ### Retrieval Tool (spec-modelled)

`backend/search_tools.py` is not part of the sources available here; the
definitions below are modelled from the specification (§3, §4.2) and
pinned by `test_course_search_tool.py`. -/

/-- A provenance entry: `{label, url}` (url may be absent). -/
structure Source where
  label : String
  url : Option String
deriving DecidableEq, Repr

/-- Modelled from the spec: the `CourseSearchTool` instance state of the
missing `backend/search_tools.py` — its store and the `last_sources`
provenance list held on the tool instance. -/
structure CourseSearchTool where
  store : VectorStore
  last_sources : List Source := []

/-- Modelled from the spec: the provenance entry built for one fragment
(§4.2) — label `"<course title> - Lesson <n>"` with the lesson-link url
when a lesson number is present, else the bare title with the
course-link url. -/
def mkSource (vs : VectorStore) (m : Meta) : Source :=
  match m.lesson_number with
  | some n =>
      { label := m.course_title ++ " - Lesson " ++ toString n
        url := vs.get_lesson_link m.course_title n }
  | none =>
      { label := m.course_title, url := vs.get_course_link m.course_title }

/-- Modelled from the spec: the labeled block formatted for one fragment
(§4.2) — course title, lesson number when present, then the fragment
text. -/
def formatBlock (m : Meta) (doc : String) : String :=
  match m.lesson_number with
  | some n => "[" ++ m.course_title ++ " - Lesson " ++ toString n ++ "]\n" ++ doc
  | none => "[" ++ m.course_title ++ "]\n" ++ doc

/-- Modelled from the spec: the fixed "no relevant content found" message
of the missing `backend/search_tools.py`, optionally naming the active
filters (§4.2). -/
def noContentMessage (course_name : Option String) (lesson_number : Option Nat) : String :=
  "No relevant content found"
    ++ (match course_name with
        | some c => " in course " ++ c
        | none => "")
    ++ (match lesson_number with
        | some l => " in lesson " ++ toString l
        | none => "")
    ++ "."

/-- Modelled from the spec: `CourseSearchTool.execute` of the missing
`backend/search_tools.py` (§4.2) — searches the store; returns the error
string verbatim on error; returns the fixed no-content message when the
result set is empty; otherwise formats the fragments into blank-line
separated blocks and *replaces* the held provenance list with one Source
per fragment, in fragment order. -/
def CourseSearchTool.execute (tool : CourseSearchTool) (query : String)
    (course_name : Option String := none) (lesson_number : Option Nat := none) :
    String × CourseSearchTool :=
  let results := tool.store.search query course_name lesson_number none
  match results.error with
  | some e => (e, tool)
  | none =>
      if results.documents.isEmpty then
        (noContentMessage course_name lesson_number, tool)
      else
        let pairs := results.documents.zip results.metadata
        let formatted := pairs.map fun p => formatBlock p.2 p.1
        let sources := pairs.map fun p => mkSource tool.store p.2
        (String.intercalate "\n\n" formatted, { tool with last_sources := sources })

/-! ## Helper lemmas -/

namespace AIGenerator

/-- The imperative per-block loop produces exactly the declaratively
described tool-result list. -/
theorem processToolBlocks_fst (tm : ToolManager) (bs : List ContentBlock) :
    (processToolBlocks tm bs).1 = toolResultsSpec tm bs := by
  induction bs with
  | nil => rfl
  | cons b rest ih =>
      cases b with
      | text t => simpa [processToolBlocks, toolResultsSpec] using ih
      | toolUse name id input =>
          simp [processToolBlocks, toolResultsSpec] at ih ⊢
          exact ih

/-- The imperative per-block loop performs exactly the declaratively
described tool executions. -/
theorem processToolBlocks_snd (tm : ToolManager) (bs : List ContentBlock) :
    (processToolBlocks tm bs).2 = toolExecsSpec tm bs := by
  induction bs with
  | nil => rfl
  | cons b rest ih =>
      cases b with
      | text t => simpa [processToolBlocks, toolExecsSpec] using ih
      | toolUse name id input =>
          simp [processToolBlocks, toolExecsSpec] at ih ⊢
          exact ih

/-- One tool-result entry is produced per tool-call request, none for
text blocks. -/
theorem toolResultsSpec_length (tm : ToolManager) (bs : List ContentBlock) :
    (toolResultsSpec tm bs).length = countToolUse bs := by
  induction bs with
  | nil => rfl
  | cons b rest ih =>
      cases b with
      | text t => simpa [toolResultsSpec, countToolUse, List.countP_cons] using ih
      | toolUse name id input =>
          simp [toolResultsSpec, countToolUse, List.countP_cons] at ih ⊢
          exact ih

theorem head?_append_some {α : Type} {l l' : List α} {a : α}
    (h : l.head? = some a) : (l ++ l').head? = some a := by
  cases l with
  | nil => simp at h
  | cons x xs => simpa using h

/-- Shape invariant of the tool-round loop: on success the trace's call
list is extended by at least one call; the first new call sends exactly
the entry messages; every new call sends the given system string and a
message list still headed by the original first turn. -/
theorem toolLoop_calls_shape (provider : Provider) (tm : ToolManager)
    (tools : Option (List ToolSchema)) (system : String) :
    ∀ (fuel callIdx : Nat) (msgs : List Message) (tr : Trace) (a : String)
      (tr' : Trace) (m0 : Message),
      msgs.head? = some m0 →
      toolLoop provider tm tools system fuel callIdx msgs tr = some (a, tr') →
      ∃ c rest, tr'.calls = tr.calls ++ c :: rest ∧ c.messages = msgs ∧
        (∀ d ∈ c :: rest, d.system = system ∧ d.messages.head? = some m0) ∧
        ∃ es, tr'.toolExecs = tr.toolExecs ++ es := by
  intro fuel
  induction fuel with
  | zero =>
      intro callIdx msgs tr a tr' m0 hm heq
      simp only [toolLoop] at heq
      cases hft : firstText (provider callIdx) with
      | none => simp [hft] at heq
      | some t =>
          simp [hft] at heq
          obtain ⟨rfl, rfl⟩ := heq
          refine ⟨plainParams msgs system, [], by simp, rfl, ?_, [], by simp⟩
          intro d hd
          simp only [List.mem_singleton] at hd
          subst hd
          exact ⟨rfl, hm⟩
  | succ fuel ih =>
      intro callIdx msgs tr a tr' m0 hm heq
      simp only [toolLoop] at heq
      by_cases hstop : (provider callIdx).stop_reason = "tool_use"
      · rw [if_neg (not_not_intro hstop)] at heq
        obtain ⟨c', rest', hcalls, hcm, hall, es', hes⟩ :=
          ih (callIdx + 1) _ _ a tr' m0 (head?_append_some (head?_append_some hm)) heq
        refine ⟨roundParams msgs system tools, c' :: rest', ?_, rfl, ?_,
          (processToolBlocks tm (provider callIdx).content).2 ++ es', ?_⟩
        · simpa [List.append_assoc] using hcalls
        · intro d hd
          rcases List.mem_cons.mp hd with hd | hd
          · subst hd
            exact ⟨rfl, hm⟩
          · exact hall d hd
        · simpa [List.append_assoc] using hes
      · rw [if_pos hstop] at heq
        cases hft : firstText (provider callIdx) with
        | none => simp [hft] at heq
        | some t =>
            simp [hft] at heq
            obtain ⟨rfl, rfl⟩ := heq
            refine ⟨roundParams msgs system tools, [], by simp, rfl, ?_, [], by simp⟩
            intro d hd
            simp only [List.mem_singleton] at hd
            subst hd
            exact ⟨rfl, hm⟩

/-- Totality and call-budget invariant of the tool-round loop: under a
well-formed provider the loop always returns, issues at most `fuel + 1`
further provider calls, every call recorded past the first `fuel` new
ones carries no tool keys, and if the full budget was used the answer is
the text of the synthesis response. -/
theorem toolLoop_run (provider : Provider) (tm : ToolManager)
    (tools : Option (List ToolSchema)) (system : String) :
    ∀ (fuel callIdx : Nat) (msgs : List Message) (tr : Trace),
      ProviderWF provider → (firstText (provider (callIdx + fuel))).isSome →
      ∃ a tr', toolLoop provider tm tools system fuel callIdx msgs tr = some (a, tr') ∧
        tr'.calls.length ≤ tr.calls.length + fuel + 1 ∧
        (∀ c ∈ tr'.calls.drop (tr.calls.length + fuel), c.tools = none ∧ c.tool_choice = none) ∧
        (tr'.calls.length = tr.calls.length + fuel + 1 →
          firstText (provider (callIdx + fuel)) = some a) := by
  intro fuel
  induction fuel with
  | zero =>
      intro callIdx msgs tr hwf hsyn
      rw [Nat.add_zero] at hsyn
      obtain ⟨t, ht⟩ := Option.isSome_iff_exists.mp hsyn
      refine ⟨t, { calls := tr.calls ++ [plainParams msgs system], toolExecs := tr.toolExecs },
        by simp [toolLoop, ht], ?_, ?_, ?_⟩
      · simp
      · intro c hc
        simp only [Nat.add_zero, List.drop_left] at hc
        simp only [List.mem_singleton] at hc
        subst hc
        exact ⟨rfl, rfl⟩
      · intro _
        rw [Nat.add_zero]
        exact ht
  | succ fuel ih =>
      intro callIdx msgs tr hwf hsyn
      by_cases hstop : (provider callIdx).stop_reason = "tool_use"
      · have hsyn' : (firstText (provider (callIdx + 1 + fuel))).isSome := by
          rw [show callIdx + 1 + fuel = callIdx + (fuel + 1) from by omega]
          exact hsyn
        obtain ⟨a, tr', heq, hlen, hdrop, hfin⟩ :=
          ih (callIdx + 1)
            (msgs ++ [{ role := "assistant", content := MessageContent.blocks (provider callIdx).content }] ++
              [{ role := "user", content := MessageContent.toolResults (processToolBlocks tm (provider callIdx).content).1 }])
            { calls := tr.calls ++ [roundParams msgs system tools]
              toolExecs := tr.toolExecs ++ (processToolBlocks tm (provider callIdx).content).2 }
            hwf hsyn'
        refine ⟨a, tr', ?_, ?_, ?_, ?_⟩
        · simp only [toolLoop]
          rw [if_neg (not_not_intro hstop)]
          exact heq
        · simp only [List.length_append, List.length_singleton] at hlen
          omega
        · intro c hc
          apply hdrop
          simp only [List.length_append, List.length_singleton]
          rw [show tr.calls.length + 1 + fuel = tr.calls.length + (fuel + 1) from by omega]
          exact hc
        · intro hl
          simp only [List.length_append, List.length_singleton] at hfin
          rw [show callIdx + (fuel + 1) = callIdx + 1 + fuel from by omega]
          apply hfin
          omega
      · have hsome := hwf callIdx hstop
        obtain ⟨t, ht⟩ := Option.isSome_iff_exists.mp hsome
        refine ⟨t,
          { calls := tr.calls ++ [roundParams msgs system tools]
            toolExecs := tr.toolExecs }, ?_, ?_, ?_, ?_⟩
        · simp only [toolLoop]
          rw [if_pos hstop]
          simp [ht]
        · simp only [List.length_append, List.length_singleton]
          omega
        · intro c hc
          rw [List.drop_eq_nil_of_le
            (by simp only [List.length_append, List.length_singleton]; omega)] at hc
          simp at hc
        · intro hl
          simp only [List.length_append, List.length_singleton] at hl
          omega

/-- One tool round unfolded: when the response requests tool use, the
loop records the round call, appends the assistant turn and the
tool-result turn (with the declaratively described results and
executions), and continues with one less unit of budget. -/
theorem toolLoop_step (provider : Provider) (tm : ToolManager)
    (tools : Option (List ToolSchema)) (system : String)
    (fuel callIdx : Nat) (msgs : List Message) (tr : Trace)
    (hstop : (provider callIdx).stop_reason = "tool_use") :
    toolLoop provider tm tools system (fuel + 1) callIdx msgs tr =
      toolLoop provider tm tools system fuel (callIdx + 1)
        (msgs ++ [{ role := "assistant", content := MessageContent.blocks (provider callIdx).content }] ++
          [{ role := "user", content := MessageContent.toolResults (toolResultsSpec tm (provider callIdx).content) }])
        { calls := tr.calls ++ [roundParams msgs system tools]
          toolExecs := tr.toolExecs ++ toolExecsSpec tm (provider callIdx).content } := by
  simp only [toolLoop]
  rw [if_neg (not_not_intro hstop), processToolBlocks_fst, processToolBlocks_snd]

/-- Turn-shape invariant: every message of every recorded call is the
seed user turn, an assistant content-block turn, or a user tool-result
turn. -/
theorem toolLoop_turns_inv (provider : Provider) (tm : ToolManager)
    (tools : Option (List ToolSchema)) (system : String) (query : String) :
    ∀ (fuel callIdx : Nat) (msgs : List Message) (tr : Trace) (a : String) (tr' : Trace),
      (∀ m ∈ msgs, seedOrToolTurn query m) →
      toolLoop provider tm tools system fuel callIdx msgs tr = some (a, tr') →
      ∀ c ∈ tr'.calls, c ∈ tr.calls ∨ ∀ m ∈ c.messages, seedOrToolTurn query m := by
  intro fuel
  induction fuel with
  | zero =>
      intro callIdx msgs tr a tr' hmsgs heq
      simp only [toolLoop] at heq
      cases hft : firstText (provider callIdx) with
      | none => simp [hft] at heq
      | some t =>
          simp [hft] at heq
          obtain ⟨rfl, rfl⟩ := heq
          intro c hc
          simp only [List.mem_append, List.mem_singleton] at hc
          rcases hc with hc | hc
          · exact Or.inl hc
          · subst hc
            exact Or.inr hmsgs
  | succ fuel ih =>
      intro callIdx msgs tr a tr' hmsgs heq
      simp only [toolLoop] at heq
      by_cases hstop : (provider callIdx).stop_reason = "tool_use"
      · rw [if_neg (not_not_intro hstop)] at heq
        have hmsgs' : ∀ m ∈ msgs ++
            [{ role := "assistant", content := MessageContent.blocks (provider callIdx).content }] ++
            [{ role := "user", content := MessageContent.toolResults (processToolBlocks tm (provider callIdx).content).1 }],
            seedOrToolTurn query m := by
          intro m hm
          simp only [List.mem_append, List.mem_singleton] at hm
          rcases hm with (hm | hm) | hm
          · exact hmsgs m hm
          · subst hm
            exact Or.inr (Or.inl ⟨rfl, _, rfl⟩)
          · subst hm
            exact Or.inr (Or.inr ⟨rfl, _, rfl⟩)
        have hrec := ih (callIdx + 1) _ _ a tr' hmsgs' heq
        intro c hc
        rcases hrec c hc with hc' | hc'
        · simp only [List.mem_append, List.mem_singleton] at hc'
          rcases hc' with hc' | hc'
          · exact Or.inl hc'
          · subst hc'
            exact Or.inr hmsgs
        · exact Or.inr hc'
      · rw [if_pos hstop] at heq
        cases hft : firstText (provider callIdx) with
        | none => simp [hft] at heq
        | some t =>
            simp [hft] at heq
            obtain ⟨rfl, rfl⟩ := heq
            intro c hc
            simp only [List.mem_append, List.mem_singleton] at hc
            rcases hc with hc | hc
            · exact Or.inl hc
            · subst hc
              exact Or.inr hmsgs

/-- Conversation-shape invariant of a full `generate_response` run: the
call list is non-empty, the first call sends exactly the single seed
user turn, and every call sends the system string built from the history
and a message list still headed by the seed user turn. -/
theorem generate_response_calls_inv (provider : Provider) (query : String)
    (hist : Option String) (tools : Option (List ToolSchema))
    (tmo : Option ToolManager) (ans : String) (tr : Trace)
    (heq : generate_response provider query hist tools tmo = some (ans, tr)) :
    (∃ c rest, tr.calls = c :: rest ∧ c.messages = [seedMsg query]) ∧
    ∀ c ∈ tr.calls, c.system = buildSystem hist ∧
      c.messages.head? = some (seedMsg query) := by
  cases tmo with
  | none =>
      simp only [generate_response] at heq
      cases hft : firstText (provider 0) with
      | none => simp [hft] at heq
      | some t =>
          simp [hft] at heq
          obtain ⟨rfl, rfl⟩ := heq
          constructor
          · exact ⟨_, [], rfl, rfl⟩
          · intro c hc
            simp only [List.mem_singleton] at hc
            subst hc
            exact ⟨rfl, rfl⟩
  | some tm =>
      have heq' : toolLoop provider tm tools (buildSystem hist) MAX_TOOL_ROUNDS 0
          [seedMsg query] { calls := [], toolExecs := [] } = some (ans, tr) := heq
      obtain ⟨c, rest, hcalls, hcm, hall, es, hes⟩ :=
        toolLoop_calls_shape provider tm tools (buildSystem hist) MAX_TOOL_ROUNDS 0
          [seedMsg query] { calls := [], toolExecs := [] } ans tr (seedMsg query) rfl heq'
      simp only [List.nil_append] at hcalls
      refine ⟨⟨c, rest, hcalls, hcm⟩, ?_⟩
      intro d hd
      rw [hcalls] at hd
      exact hall d hd

/-- Turn-shape invariant of a full `generate_response` run: no recorded
call's message list contains anything but the seed user turn, assistant
content-block turns, and user tool-result turns. -/
theorem generate_response_turns_inv (provider : Provider) (query : String)
    (hist : Option String) (tools : Option (List ToolSchema))
    (tmo : Option ToolManager) (ans : String) (tr : Trace)
    (heq : generate_response provider query hist tools tmo = some (ans, tr)) :
    ∀ c ∈ tr.calls, ∀ m ∈ c.messages, seedOrToolTurn query m := by
  cases tmo with
  | none =>
      simp only [generate_response] at heq
      cases hft : firstText (provider 0) with
      | none => simp [hft] at heq
      | some t =>
          simp [hft] at heq
          obtain ⟨rfl, rfl⟩ := heq
          intro c hc
          simp only [List.mem_singleton] at hc
          subst hc
          intro m hm
          simp only [plainParams, List.mem_singleton] at hm
          subst hm
          exact Or.inl rfl
  | some tm =>
      have heq' : toolLoop provider tm tools (buildSystem hist) MAX_TOOL_ROUNDS 0
          [seedMsg query] { calls := [], toolExecs := [] } = some (ans, tr) := heq
      intro c hc
      have hmsgs : ∀ m ∈ [seedMsg query], seedOrToolTurn query m := by
        intro m hm
        simp only [List.mem_singleton] at hm
        subst hm
        exact Or.inl rfl
      rcases toolLoop_turns_inv provider tm tools (buildSystem hist) query
          MAX_TOOL_ROUNDS 0 [seedMsg query] { calls := [], toolExecs := [] } ans tr
          hmsgs heq' c hc with h | h
      · simp at h
      · exact h

/-! ## Claim theorems -/

/-- C1: For every query processed by `generate_response` with a tool
manager attached and a well-formed provider, the run terminates with a
final answer string, and at most `MAX_TOOL_ROUNDS + 1 = 3` provider
calls are issued, however many rounds request tools. -/
theorem generate_response_call_budget (provider : Provider) (query : String)
    (hist : Option String) (tools : Option (List ToolSchema)) (tm : ToolManager)
    (hwf : ProviderWF provider)
    (hsyn : (firstText (provider MAX_TOOL_ROUNDS)).isSome) :
    ∃ ans tr, generate_response provider query hist tools (some tm) = some (ans, tr) ∧
      tr.calls.length ≤ MAX_TOOL_ROUNDS + 1 := by
  obtain ⟨a, tr', heq, hlen, _, _⟩ :=
    toolLoop_run provider tm tools (buildSystem hist) MAX_TOOL_ROUNDS 0
      [seedMsg query] { calls := [], toolExecs := [] } hwf (by simpa using hsyn)
  exact ⟨a, tr', heq, by simpa using hlen⟩

/-- C1 witness: a provider that answers immediately satisfies the
hypotheses and the bound. -/
theorem generate_response_call_budget_witness :
    ∃ ans tr, generate_response (fun _ => { stop_reason := "end_turn", content := [ContentBlock.text "ok"] })
        "q" none none (some fun _ _ => Except.ok "r") = some (ans, tr) ∧
      tr.calls.length ≤ MAX_TOOL_ROUNDS + 1 :=
  generate_response_call_budget _ "q" none none _ (fun _ _ => rfl) rfl

/-- C2: Across one query's provider calls, any call beyond the first
`MAX_TOOL_ROUNDS` carries neither a tool schema nor a `tool_choice`
parameter, and when the full budget was used (three calls) the final
answer is exactly the text of the forced synthesis call's response. -/
theorem generate_response_synthesis_no_tools (provider : Provider) (query : String)
    (hist : Option String) (tools : Option (List ToolSchema)) (tm : ToolManager)
    (hwf : ProviderWF provider)
    (hsyn : (firstText (provider MAX_TOOL_ROUNDS)).isSome) :
    ∃ ans tr, generate_response provider query hist tools (some tm) = some (ans, tr) ∧
      (∀ c ∈ tr.calls.drop MAX_TOOL_ROUNDS, c.tools = none ∧ c.tool_choice = none) ∧
      (tr.calls.length = MAX_TOOL_ROUNDS + 1 →
        firstText (provider MAX_TOOL_ROUNDS) = some ans) := by
  obtain ⟨a, tr', heq, hlen, hdrop, hfin⟩ :=
    toolLoop_run provider tm tools (buildSystem hist) MAX_TOOL_ROUNDS 0
      [seedMsg query] { calls := [], toolExecs := [] } hwf (by simpa using hsyn)
  refine ⟨a, tr', heq, ?_, ?_⟩
  · intro c hc
    exact hdrop c (by simpa using hc)
  · intro hl
    simpa using hfin (by simpa using hl)

/-- C2 witness: a provider that always requests tools exercises the full
budget; the synthesis call carries no tool keys and provides the final
answer. -/
theorem generate_response_synthesis_no_tools_witness :
    ∃ ans tr, generate_response
        (fun n => if n < 2
          then Response.mk "tool_use" [ContentBlock.toolUse "search_course_content" "t1" [("query", "x")]]
          else Response.mk "end_turn" [ContentBlock.text "done"])
        "q" none (some ["search_course_content"]) (some fun _ _ => Except.ok "r") = some (ans, tr) ∧
      (∀ c ∈ tr.calls.drop MAX_TOOL_ROUNDS, c.tools = none ∧ c.tool_choice = none) ∧
      (tr.calls.length = MAX_TOOL_ROUNDS + 1 →
        firstText ((fun n => if n < 2
          then Response.mk "tool_use" [ContentBlock.toolUse "search_course_content" "t1" [("query", "x")]]
          else Response.mk "end_turn" [ContentBlock.text "done"]) MAX_TOOL_ROUNDS) = some ans) :=
  generate_response_synthesis_no_tools _ "q" none (some ["search_course_content"]) _
    (fun n h => by
      by_cases hn : n < 2
      · exact absurd (by simp [hn]) h
      · simp [hn, firstText])
    rfl

/-- C6: If the first response carries a non-tool stop condition, its
text is returned verbatim as the final answer, with exactly one provider
call issued and zero tool executions. -/
theorem generate_response_direct_answer (provider : Provider) (query : String)
    (hist : Option String) (tools : Option (List ToolSchema)) (tm : ToolManager)
    (t : String)
    (hstop : (provider 0).stop_reason ≠ "tool_use")
    (ht : firstText (provider 0) = some t) :
    ∃ tr, generate_response provider query hist tools (some tm) = some (t, tr) ∧
      tr.calls.length = 1 ∧ tr.toolExecs = [] := by
  simp [generate_response, MAX_TOOL_ROUNDS, toolLoop, hstop, ht]

/-- C6 witness. -/
theorem generate_response_direct_answer_witness :
    ∃ tr, generate_response (fun _ => { stop_reason := "end_turn", content := [ContentBlock.text "hello"] })
        "q" none none (some fun _ _ => Except.ok "r") = some ("hello", tr) ∧
      tr.calls.length = 1 ∧ tr.toolExecs = [] :=
  generate_response_direct_answer _ "q" none none _ "hello" (by simp) rfl

/-- C8: Every run seeds the conversation with exactly one user turn
holding the question; the prior-session context is folded into the
system string sent with every call (via `buildSystem`), never into the
turn sequence — every turn of every call is the seed, an assistant
content-block turn, or a tool-result turn, and every call's message list
is headed by the seed. -/
theorem generate_response_seeding (provider : Provider) (query : String)
    (hist : Option String) (tools : Option (List ToolSchema))
    (tmo : Option ToolManager) (ans : String) (tr : Trace)
    (heq : generate_response provider query hist tools tmo = some (ans, tr)) :
    (∃ c rest, tr.calls = c :: rest ∧ c.messages = [seedMsg query]) ∧
    (∀ c ∈ tr.calls, c.system = buildSystem hist ∧
      c.messages.head? = some (seedMsg query)) ∧
    ∀ c ∈ tr.calls, ∀ m ∈ c.messages, seedOrToolTurn query m := by
  obtain ⟨h1, h2⟩ := generate_response_calls_inv provider query hist tools tmo ans tr heq
  exact ⟨h1, h2, generate_response_turns_inv provider query hist tools tmo ans tr heq⟩

/-- C8 witness. -/
theorem generate_response_seeding_witness :
    (∃ c rest, (Trace.mk [plainParams [seedMsg "q"] (buildSystem (some "earlier"))] []).calls = c :: rest ∧
      c.messages = [seedMsg "q"]) ∧
    (∀ c ∈ (Trace.mk [plainParams [seedMsg "q"] (buildSystem (some "earlier"))] []).calls,
      c.system = buildSystem (some "earlier") ∧ c.messages.head? = some (seedMsg "q")) ∧
    ∀ c ∈ (Trace.mk [plainParams [seedMsg "q"] (buildSystem (some "earlier"))] []).calls,
      ∀ m ∈ c.messages, seedOrToolTurn "q" m :=
  generate_response_seeding
    (fun _ => { stop_reason := "end_turn", content := [ContentBlock.text "a"] })
    "q" (some "earlier") none none "a"
    (Trace.mk [plainParams [seedMsg "q"] (buildSystem (some "earlier"))] []) rfl

/-- C9: Without a tool manager, exactly one provider call is made and it
carries no tool keys even when a non-empty tools list is supplied; the
tools argument is entirely ignored. -/
theorem generate_response_no_manager (provider : Provider) (query : String)
    (hist : Option String) (tools : Option (List ToolSchema)) (t : String)
    (ht : firstText (provider 0) = some t) :
    generate_response provider query hist tools none =
      some (t, { calls := [plainParams [seedMsg query] (buildSystem hist)], toolExecs := [] }) ∧
    generate_response provider query hist tools none =
      generate_response provider query hist none none := by
  constructor
  · simp [generate_response, ht]
    rfl
  · rfl

/-- C9 witness: a non-empty tools list is supplied and ignored. -/
theorem generate_response_no_manager_witness :
    generate_response (fun _ => { stop_reason := "end_turn", content := [ContentBlock.text "hi"] })
        "q" none (some ["search_course_content"]) none =
      some ("hi", { calls := [plainParams [seedMsg "q"] (buildSystem none)], toolExecs := [] }) ∧
    generate_response (fun _ => { stop_reason := "end_turn", content := [ContentBlock.text "hi"] })
        "q" none (some ["search_course_content"]) none =
      generate_response (fun _ => { stop_reason := "end_turn", content := [ContentBlock.text "hi"] })
        "q" none none none :=
  generate_response_no_manager _ "q" none (some ["search_course_content"]) "hi" rfl

/-- Shared first-round analysis: when the first response requests tool
use, the run completes, the second call's conversation is seed turn,
assistant turn, tool-result turn, and the round's executions prefix the
execution trace. -/
theorem generate_response_round_aux (provider : Provider) (query : String)
    (hist : Option String) (tools : Option (List ToolSchema)) (tm : ToolManager)
    (h0 : (provider 0).stop_reason = "tool_use")
    (hwf : ProviderWF provider)
    (hsyn : (firstText (provider MAX_TOOL_ROUNDS)).isSome) :
    ∃ ans tr, generate_response provider query hist tools (some tm) = some (ans, tr) ∧
      (∃ c0 c1 rest, tr.calls = c0 :: c1 :: rest ∧
        c1.messages = [seedMsg query,
          Message.mk "assistant" (MessageContent.blocks (provider 0).content),
          Message.mk "user" (MessageContent.toolResults (toolResultsSpec tm (provider 0).content))]) ∧
      List.IsPrefix (toolExecsSpec tm (provider 0).content) tr.toolExecs := by
  have hstep : generate_response provider query hist tools (some tm) =
      toolLoop provider tm tools (buildSystem hist) 1 1
        ([seedMsg query] ++
          [Message.mk "assistant" (MessageContent.blocks (provider 0).content)] ++
          [Message.mk "user" (MessageContent.toolResults (toolResultsSpec tm (provider 0).content))])
        { calls := (Trace.mk [] []).calls ++ [roundParams [seedMsg query] (buildSystem hist) tools]
          toolExecs := (Trace.mk [] []).toolExecs ++ toolExecsSpec tm (provider 0).content } := by
    have h : generate_response provider query hist tools (some tm) =
        toolLoop provider tm tools (buildSystem hist) (1 + 1) 0 [seedMsg query]
          (Trace.mk [] []) := rfl
    rw [h, toolLoop_step provider tm tools (buildSystem hist) 1 0 [seedMsg query]
      (Trace.mk [] []) h0]
  obtain ⟨a, tr', heq2, hlen, hdrop, hfin⟩ :=
    toolLoop_run provider tm tools (buildSystem hist) 1 1
      ([seedMsg query] ++
        [Message.mk "assistant" (MessageContent.blocks (provider 0).content)] ++
        [Message.mk "user" (MessageContent.toolResults (toolResultsSpec tm (provider 0).content))])
      { calls := (Trace.mk [] []).calls ++ [roundParams [seedMsg query] (buildSystem hist) tools]
        toolExecs := (Trace.mk [] []).toolExecs ++ toolExecsSpec tm (provider 0).content }
      hwf (by exact hsyn)
  obtain ⟨c, rest, hcalls, hcm, hall, es, hes⟩ :=
    toolLoop_calls_shape provider tm tools (buildSystem hist) 1 1
      ([seedMsg query] ++
        [Message.mk "assistant" (MessageContent.blocks (provider 0).content)] ++
        [Message.mk "user" (MessageContent.toolResults (toolResultsSpec tm (provider 0).content))])
      { calls := (Trace.mk [] []).calls ++ [roundParams [seedMsg query] (buildSystem hist) tools]
        toolExecs := (Trace.mk [] []).toolExecs ++ toolExecsSpec tm (provider 0).content }
      a tr' (seedMsg query) rfl heq2
  refine ⟨a, tr', hstep.trans heq2, ?_, ?_⟩
  · refine ⟨roundParams [seedMsg query] (buildSystem hist) tools, c, rest, ?_, ?_⟩
    · simpa using hcalls
    · simpa using hcm
  · refine ⟨es, ?_⟩
    simp only [hes]
    simp

/-- C5: When a response's stop condition requests tool use, every
requested call is dispatched in the order the model emitted the blocks
(the round's executions, in emission order, form a prefix of the run's
execution trace), and all results are collected into exactly one new
user turn of tool-result entries keyed by the originating call's id,
appended to the conversation directly after the assistant turn holding
the raw requests — as witnessed by the second provider call's exact
message list. -/
theorem generate_response_tool_round_shape (provider : Provider) (query : String)
    (hist : Option String) (tools : Option (List ToolSchema)) (tm : ToolManager)
    (h0 : (provider 0).stop_reason = "tool_use")
    (hwf : ProviderWF provider)
    (hsyn : (firstText (provider MAX_TOOL_ROUNDS)).isSome) :
    ∃ ans tr, generate_response provider query hist tools (some tm) = some (ans, tr) ∧
      (∃ c0 c1 rest, tr.calls = c0 :: c1 :: rest ∧
        c1.messages = [seedMsg query,
          Message.mk "assistant" (MessageContent.blocks (provider 0).content),
          Message.mk "user" (MessageContent.toolResults (toolResultsSpec tm (provider 0).content))]) ∧
      List.IsPrefix (toolExecsSpec tm (provider 0).content) tr.toolExecs :=
  generate_response_round_aux provider query hist tools tm h0 hwf hsyn

/-- C5 witness: first response requests one tool call, then a direct
answer ends the run. -/
theorem generate_response_tool_round_shape_witness :
    ∃ ans tr, generate_response
        (fun n => if n = 0
          then Response.mk "tool_use" [ContentBlock.toolUse "search_course_content" "t1" [("query", "x")]]
          else Response.mk "end_turn" [ContentBlock.text "done"])
        "q" none none (some fun _ _ => Except.ok "found it") = some (ans, tr) ∧
      (∃ c0 c1 rest, tr.calls = c0 :: c1 :: rest ∧
        c1.messages = [seedMsg "q",
          Message.mk "assistant" (MessageContent.blocks ((fun n => if n = 0
            then Response.mk "tool_use" [ContentBlock.toolUse "search_course_content" "t1" [("query", "x")]]
            else Response.mk "end_turn" [ContentBlock.text "done"]) 0).content),
          Message.mk "user" (MessageContent.toolResults (toolResultsSpec (fun _ _ => Except.ok "found it")
            ((fun n => if n = 0
              then Response.mk "tool_use" [ContentBlock.toolUse "search_course_content" "t1" [("query", "x")]]
              else Response.mk "end_turn" [ContentBlock.text "done"]) 0).content))]) ∧
      List.IsPrefix (toolExecsSpec (fun _ _ => Except.ok "found it")
        ((fun n => if n = 0
          then Response.mk "tool_use" [ContentBlock.toolUse "search_course_content" "t1" [("query", "x")]]
          else Response.mk "end_turn" [ContentBlock.text "done"]) 0).content) tr.toolExecs :=
  generate_response_tool_round_shape _ "q" none none _ rfl
    (fun n h => by
      by_cases hn : n = 0
      · exact absurd (by simp [hn]) h
      · simp [hn, firstText])
    rfl

/-- C3: If a tool call requested in the first round fails with an
exception, the run still completes with a final answer; the faulting
call's entry in the round's tool-result turn is exactly
`"Tool error: <message>"` keyed by the call's id; every sibling request
still yields a result entry (one per `tool_use` block); and that
tool-result turn is part of a recorded provider call's conversation. -/
theorem generate_response_tool_error_contained (provider : Provider) (query : String)
    (hist : Option String) (tools : Option (List ToolSchema)) (tm : ToolManager)
    (nm tid : String) (inp : ToolInput) (msg : String)
    (h0 : (provider 0).stop_reason = "tool_use")
    (hmem : ContentBlock.toolUse nm tid inp ∈ (provider 0).content)
    (hfail : tm nm inp = Except.error msg)
    (hwf : ProviderWF provider)
    (hsyn : (firstText (provider MAX_TOOL_ROUNDS)).isSome) :
    ∃ ans tr, generate_response provider query hist tools (some tm) = some (ans, tr) ∧
      ToolResult.mk tid ("Tool error: " ++ msg) ∈ toolResultsSpec tm (provider 0).content ∧
      (toolResultsSpec tm (provider 0).content).length = countToolUse (provider 0).content ∧
      ∃ c ∈ tr.calls,
        Message.mk "user" (MessageContent.toolResults (toolResultsSpec tm (provider 0).content)) ∈
          c.messages := by
  obtain ⟨ans, tr, hgen, ⟨c0, c1, rest, hcalls, hc1⟩, _⟩ :=
    generate_response_round_aux provider query hist tools tm h0 hwf hsyn
  refine ⟨ans, tr, hgen, ?_, toolResultsSpec_length tm _, ?_⟩
  · refine List.mem_filterMap.mpr ⟨ContentBlock.toolUse nm tid inp, hmem, ?_⟩
    simp [execResult, hfail]
  · refine ⟨c1, ?_, ?_⟩
    · rw [hcalls]
      simp
    · rw [hc1]
      simp

/-- C3 witness: two sibling tool calls, the first failing; both yield
result entries and the run completes. -/
theorem generate_response_tool_error_contained_witness :
    ∃ ans tr, generate_response
        (fun n => if n = 0
          then Response.mk "tool_use" [ContentBlock.toolUse "search_course_content" "bad" [("query", "x")],
            ContentBlock.toolUse "get_course_outline" "good" [("course", "y")]]
          else Response.mk "end_turn" [ContentBlock.text "recovered"])
        "q" none none
        (some fun nm _ => if nm = "search_course_content" then Except.error "search failed" else Except.ok "outline") =
      some (ans, tr) ∧
      ToolResult.mk "bad" ("Tool error: " ++ "search failed") ∈
        toolResultsSpec (fun nm _ => if nm = "search_course_content" then Except.error "search failed" else Except.ok "outline")
          ((fun n => if n = 0
            then Response.mk "tool_use" [ContentBlock.toolUse "search_course_content" "bad" [("query", "x")],
              ContentBlock.toolUse "get_course_outline" "good" [("course", "y")]]
            else Response.mk "end_turn" [ContentBlock.text "recovered"]) 0).content ∧
      (toolResultsSpec (fun nm _ => if nm = "search_course_content" then Except.error "search failed" else Except.ok "outline")
          ((fun n => if n = 0
            then Response.mk "tool_use" [ContentBlock.toolUse "search_course_content" "bad" [("query", "x")],
              ContentBlock.toolUse "get_course_outline" "good" [("course", "y")]]
            else Response.mk "end_turn" [ContentBlock.text "recovered"]) 0).content).length =
        countToolUse ((fun n => if n = 0
          then Response.mk "tool_use" [ContentBlock.toolUse "search_course_content" "bad" [("query", "x")],
            ContentBlock.toolUse "get_course_outline" "good" [("course", "y")]]
          else Response.mk "end_turn" [ContentBlock.text "recovered"]) 0).content ∧
      ∃ c ∈ tr.calls,
        Message.mk "user" (MessageContent.toolResults
          (toolResultsSpec (fun nm _ => if nm = "search_course_content" then Except.error "search failed" else Except.ok "outline")
            ((fun n => if n = 0
              then Response.mk "tool_use" [ContentBlock.toolUse "search_course_content" "bad" [("query", "x")],
                ContentBlock.toolUse "get_course_outline" "good" [("course", "y")]]
              else Response.mk "end_turn" [ContentBlock.text "recovered"]) 0).content)) ∈ c.messages :=
  generate_response_tool_error_contained _ "q" none none _
    "search_course_content" "bad" [("query", "x")] "search failed"
    rfl (by simp) rfl
    (fun n h => by
      by_cases hn : n = 0
      · exact absurd (by simp [hn]) h
      · simp [hn, firstText])
    rfl

/-- C10: Supplying the empty string as conversation history behaves
identically to supplying no history at all, and the system string sent
on every call of such a run is exactly the static system prompt. -/
theorem generate_response_empty_history (provider : Provider) (query : String)
    (tools : Option (List ToolSchema)) (tmo : Option ToolManager) :
    generate_response provider query (some "") tools tmo =
      generate_response provider query none tools tmo ∧
    buildSystem (some "") = SYSTEM_PROMPT ∧
    ∀ ans tr, generate_response provider query (some "") tools tmo = some (ans, tr) →
      ∀ c ∈ tr.calls, c.system = SYSTEM_PROMPT := by
  refine ⟨rfl, rfl, ?_⟩
  intro ans tr heq c hc
  exact ((generate_response_calls_inv provider query (some "") tools tmo ans tr heq).2 c hc).1

/-- C10 witness. -/
theorem generate_response_empty_history_witness :
    generate_response (fun _ => { stop_reason := "end_turn", content := [ContentBlock.text "a"] })
        "q" (some "") none none =
      generate_response (fun _ => { stop_reason := "end_turn", content := [ContentBlock.text "a"] })
        "q" none none none ∧
    buildSystem (some "") = SYSTEM_PROMPT ∧
    ∀ ans tr, generate_response (fun _ => { stop_reason := "end_turn", content := [ContentBlock.text "a"] })
        "q" (some "") none none = some (ans, tr) →
      ∀ c ∈ tr.calls, c.system = SYSTEM_PROMPT :=
  generate_response_empty_history _ "q" none none

end AIGenerator

/-- C4: When the effective result count of a `search` call is zero and
the underlying index rejects the request, the rejection is caught and
converted into a result set whose `error` field is non-absent and starts
with (hence contains) the substring `"Search error"`.  `VectorStore.search`
is a total function, so no exception escapes the operation. -/
theorem vector_store_search_zero_count (vs : VectorStore) (query : String)
    (course_name : Option String) (lesson_number : Option Nat)
    (lim : Option Nat) (m : String)
    (h0 : lim.getD vs.max_results = 0)
    (hidx : vs.course_content 0 (build_filter course_name lesson_number) query =
      Except.error m) :
    ∃ e, (vs.search query course_name lesson_number lim).error = some e ∧
      e = "Search error: " ++ m ∧
      List.IsPrefix "Search error".data e.data := by
  refine ⟨"Search error: " ++ m, ?_, rfl, ?_⟩
  · simp only [VectorStore.search, h0, hidx, SearchResults.empty]
  · have h1 : "Search error".data <+: "Search error: ".data := by decide
    have h2 : "Search error: ".data <+: ("Search error: " ++ m).data := by
      rw [String.data_append]
      exact List.prefix_append _ _
    exact h1.trans h2

/-- C4 witness: a store configured with `max_results = 0` whose index
rejects `n_results = 0`, as in the repository's own regression test. -/
theorem vector_store_search_zero_count_witness :
    ∃ e, ((VectorStore.mk 0
        (fun n _ _ => if n = 0
          then Except.error "Number of requested results 0 is less than the smallest sample size 1"
          else Except.ok [])
        (fun _ _ => none) (fun _ => none)).search "test query" none none none).error = some e ∧
      e = "Search error: " ++ "Number of requested results 0 is less than the smallest sample size 1" ∧
      List.IsPrefix "Search error".data e.data :=
  vector_store_search_zero_count
    (VectorStore.mk 0
      (fun n _ _ => if n = 0
        then Except.error "Number of requested results 0 is less than the smallest sample size 1"
        else Except.ok [])
      (fun _ _ => none) (fun _ => none))
    "test query" none none none
    "Number of requested results 0 is less than the smallest sample size 1" rfl rfl

/-- C7: An `execute` call whose search succeeds with k fragments
replaces the tool's provenance with exactly k Source entries — one per
fragment, in fragment order, each labeled
`"<course title> - Lesson <n>"` with the lesson link as url when a
lesson number is present (else the bare title with the course link) —
for *any* prior provenance state (full replacement, never a merge);
when the search result carries an error or is empty, a tool whose
provenance is empty keeps it empty. -/
theorem course_search_tool_provenance (tool : CourseSearchTool) (query : String)
    (course_name : Option String) (lesson_number : Option Nat)
    (r : SearchResults)
    (hr : tool.store.search query course_name lesson_number none = r)
    (halign : r.metadata.length = r.documents.length) :
    (r.error = none → r.documents ≠ [] →
      (tool.execute query course_name lesson_number).2.last_sources =
        (r.documents.zip r.metadata).map (fun p =>
          match p.2.lesson_number with
          | some n => Source.mk (p.2.course_title ++ " - Lesson " ++ toString n)
              (tool.store.get_lesson_link p.2.course_title n)
          | none => Source.mk p.2.course_title
              (tool.store.get_course_link p.2.course_title)) ∧
      (tool.execute query course_name lesson_number).2.last_sources.length =
        r.documents.length) ∧
    ((r.error ≠ none ∨ r.documents = []) → tool.last_sources = [] →
      (tool.execute query course_name lesson_number).2.last_sources = []) := by
  constructor
  · intro herr hne
    have hempty : r.documents.isEmpty = false := by
      simp [List.isEmpty_iff, hne]
    constructor
    · simp only [CourseSearchTool.execute, hr, herr, hempty]
      rfl
    · simp only [CourseSearchTool.execute, hr, herr, hempty]
      simp [List.length_zip, halign]
  · intro herr hinit
    rcases herr with herr | hdocs
    · obtain ⟨e, he⟩ := Option.ne_none_iff_exists'.mp herr
      simp only [CourseSearchTool.execute, hr, he]
      exact hinit
    · cases he : r.error with
      | some e =>
          simp only [CourseSearchTool.execute, hr, he]
          exact hinit
      | none =>
          have hempty : r.documents.isEmpty = true := by simp [hdocs]
          simp only [CourseSearchTool.execute, hr, he, hempty]
          exact hinit

/-- C7 witness: a successful two-fragment search fully replaces a
non-empty prior provenance list; `by decide` evaluates the resulting
sources explicitly. -/
theorem course_search_tool_provenance_witness :
    ((CourseSearchTool.mk
        (VectorStore.mk 5
          (fun _ _ _ => Except.ok [("doc1", Meta.mk "Course A" (some 3), 0),
            ("doc2", Meta.mk "Course B" none, 0)])
          (fun _ n => some ("lessonlink" ++ toString n)) (fun t => some ("courselink " ++ t)))
        [Source.mk "stale" none]).execute "q" none none).2.last_sources =
      [Source.mk ("Course A" ++ " - Lesson " ++ toString 3) (some ("lessonlink" ++ toString 3)),
       Source.mk "Course B" (some ("courselink " ++ "Course B"))] :=
  (((course_search_tool_provenance
      (CourseSearchTool.mk
        (VectorStore.mk 5
          (fun _ _ _ => Except.ok [("doc1", Meta.mk "Course A" (some 3), 0),
            ("doc2", Meta.mk "Course B" none, 0)])
          (fun _ n => some ("lessonlink" ++ toString n)) (fun t => some ("courselink " ++ t)))
        [Source.mk "stale" none])
      "q" none none
      (SearchResults.mk ["doc1", "doc2"]
        [Meta.mk "Course A" (some 3), Meta.mk "Course B" none] [0, 0] none)
      rfl rfl).1 rfl (by decide)).1).trans (by decide)

end RAG
